import Mathlib

/-!
Verification of the gesture-driven route-building core of the Snarveg app.

The TypeScript source is shallowly embedded: JavaScript strings become
`String`, JS numbers that are used as exact quantities become `Nat`/`Rat`
(every numeric computation in the embedded code is exact: times are
integers, distances are multiples of 0.1), optional fields become
`Option`, and the impure inputs `Math.random()` / `Date.now()` are passed
in as explicit oracle parameters, so every embedded function is a pure,
executable Lean function.

Two variants of the route linearizer `buildRouteFromConnections` exist in
the repository (a deterministic one with an in/out-degree start-node
search, and one that always starts at the node `home`, walks edges in
either direction and synthesizes random totals); both are embedded below.
-/

set_option autoImplicit false

namespace Snarveg

/-- A directed connection (edge) between two node identifiers, from
`src/components/travel/types.ts`.  `transportMode` and `createdAt` are
optional in the source and become `Option` here. `from` is a Lean keyword,
hence the guillemets. -/
structure Connection where
  «from» : String
  «to» : String
  isLocked : Bool
  transportMode : Option String
  createdAt : Option Nat
  deriving DecidableEq, Repr

/-- A node position (angle in degrees, radius in pixels).  The JS numbers
are modelled as exact rationals. -/
structure Pos where
  angle : Rat
  radius : Rat
  deriving DecidableEq, Repr

/-- A destination node, from `types.ts`.  Only the fields that the
embedded logic reads or writes are kept; the optional JS booleans
`isCenter`/`isEmpty` become `Bool` (absent ↦ `false`). -/
structure Destination where
  id : String
  emoji : String
  label : String
  color : String
  position : Pos
  isCenter : Bool
  isEmpty : Bool
  deriving DecidableEq, Repr

/-- A built route, from `types.ts`.  Every `totalTime` the code computes
is a whole number of minutes, and every `totalDistance` a whole number
of tenths of a km, so the JS numbers are modelled exactly as `totalTime`
minutes and `totalDistanceTenths` tenths of a km. -/
structure Route where
  id : String
  destinations : List String
  transportModes : List String
  totalTime : Nat
  totalDistanceTenths : Nat
  deriving DecidableEq, Repr

/-- `connectionExists` from `utils/helpers`: a connection between `from`
and `to` exists in either direction. -/
def connectionExists (connections : List Connection) («from» «to» : String) : Bool :=
  connections.any fun c =>
    (c.«from» == «from» && c.«to» == «to») || (c.«from» == «to» && c.«to» == «from»)

/-- `hasOutgoingConnection` from `utils/helpers`: some connection has
`nodeId` as its `from`. -/
def hasOutgoingConnection (connections : List Connection) (nodeId : String) : Bool :=
  connections.any fun c => c.«from» == nodeId

/-- The dash-joined key `${conn.from}-${conn.to}` used by the defensive
dedup pass of `handleConnectionCreate`. -/
def connKey (c : Connection) : String :=
  c.«from» ++ "-" ++ c.«to»

/-- The reversed key `${conn.to}-${conn.from}`. -/
def connKeyRev (c : Connection) : String :=
  c.«to» ++ "-" ++ c.«from»

/-- The dedup filter of `handleConnectionCreate` (RouteVisualization.tsx
lines 807-818): a JS `filter` over the list with a mutable `seen` set of
keys; a connection is kept iff neither its key nor its reversed key was
seen before, and keeping it adds both keys. -/
def dedupAux (seen : List String) : List Connection → List Connection
  | [] => []
  | c :: rest =>
    if seen.contains (connKey c) || seen.contains (connKeyRev c) then
      dedupAux seen rest
    else
      c :: dedupAux (seen ++ [connKey c, connKeyRev c]) rest

/-- The full dedup pass, starting from an empty `seen` set. -/
def dedupConnections (l : List Connection) : List Connection :=
  dedupAux [] l

/-- `handleConnectionCreate` (RouteVisualization.tsx lines 804-841, the
variant with the defensive dedup pass).  The random transport mode drawn
by `getRandomTransportMode()` is the oracle parameter `mode`, and
`Date.now()` is the oracle parameter `now`. -/
def handleConnectionCreate («from» «to» mode : String) (now : Nat)
    (prev : List Connection) : List Connection :=
  let deduplicated := dedupConnections prev
  let existsForward := connectionExists deduplicated «from» «to»
  let existsReverse := connectionExists deduplicated «to» «from»
  if existsForward || existsReverse then
    deduplicated
  else if hasOutgoingConnection deduplicated «from» then
    deduplicated
  else
    deduplicated ++ [{ «from» := «from», «to» := «to», isLocked := false,
                       transportMode := some mode, createdAt := some now }]

/-- `handleConnectionLock` (RouteVisualization.tsx lines 843-851, and
identically lines 498-506): mark every connection whose endpoints are
`{from, to}` in either orientation as locked. -/
def handleConnectionLock («from» «to» : String) (prev : List Connection) :
    List Connection :=
  prev.map fun c =>
    if (c.«from» == «from» && c.«to» == «to») || (c.«from» == «to» && c.«to» == «from») then
      { c with isLocked := true }
    else
      c

/-- `handleClearConnections` (RouteVisualization.tsx lines 975-977): the
cancel-route operation simply replaces the connection list by the empty
list.  It does not touch any timer or gesture state, which all live in
`NavigationWheel`. -/
def handleClearConnections (_prev : List Connection) : List Connection :=
  []

/-- JS `x || dflt` on an optional string: `undefined` and the empty
string are falsy. -/
def jsOrString (o : Option String) (dflt : String) : String :=
  match o with
  | some s => if s == "" then dflt else s
  | none => dflt

/-- The walking emoji used as default transport mode. -/
def walkEmoji : String :=
  "🚶‍♂️"

/-- JS `Set` insertion order: append an element unless already present. -/
def insertUnique (l : List String) (x : String) : List String :=
  if l.contains x then l else l ++ [x]

/-- The `allNodes` set of the deterministic linearizer: every node id
referenced by a connection, in first-occurrence order of the stream
`c0.from, c0.to, c1.from, c1.to, …`. -/
def allNodes (connections : List Connection) : List String :=
  connections.foldl (fun acc c => insertUnique (insertUnique acc c.«from») c.«to») []

/-- `incomingCount.get(node) ?? 0` of the deterministic linearizer. -/
def incomingCount (connections : List Connection) (node : String) : Nat :=
  (connections.filter fun c => c.«to» == node).length

/-- `outgoingCount.get(node) ?? 0` of the deterministic linearizer. -/
def outgoingCount (connections : List Connection) (node : String) : Nat :=
  (connections.filter fun c => c.«from» == node).length

/-- Start-node selection of the deterministic `buildRouteFromConnections`
(`src/unnamed/part_001` lines 21-27): the first node (in `allNodes`
order) with in-degree 0 and out-degree > 0, falling back to the `from`
of the first connection. -/
def startNode (connections : List Connection) : Option String :=
  match (allNodes connections).find? (fun n =>
      incomingCount connections n == 0 && !(outgoingCount connections n == 0)) with
  | some s => some s
  | none => (connections.head?).map (fun c => c.«from»)

/-- One search of the walk loop (`part_001` lines 39-44): the first
connection, by index, that is not yet used, leaves the current node, and
reaches an unvisited node. -/
def findNextConn (connections : List Connection) (visitedConnections : List Nat)
    (visitedNodes : List String) (current : String) : Option (Nat × Connection) :=
  connections.enum.find? fun p =>
    !(visitedConnections.contains p.1) && p.2.«from» == current &&
      !(visitedNodes.contains p.2.«to»)

/-- The `while (true)` walk loop of the deterministic linearizer
(`part_001` lines 38-56), made total with fuel.  Each successful step
consumes a fresh connection index, so `connections.length` steps of fuel
reproduce the source loop exactly.  Returns the route and the ordered
list of connections used. -/
def walkLoop (connections : List Connection) : Nat → List String → List String →
    List Nat → List Connection → String → List String × List Connection
  | 0, route, _, _, orderedConnections, _ => (route, orderedConnections)
  | fuel + 1, route, visitedNodes, visitedConnections, orderedConnections, current =>
    match findNextConn connections visitedConnections visitedNodes current with
    | none => (route, orderedConnections)
    | some (idx, conn) =>
      walkLoop connections fuel (route ++ [conn.«to»]) (visitedNodes ++ [conn.«to»])
        (visitedConnections ++ [idx]) (orderedConnections ++ [conn]) conn.«to»

/-- The walk of the deterministic linearizer from its chosen start node:
the route list together with the ordered connections it used. -/
def walkResult (connections : List Connection) : List String × List Connection :=
  match startNode connections with
  | none => ([], [])
  | some start => walkLoop connections connections.length [start] [start] [] [] start

/-- The route list walked by the deterministic linearizer. -/
def routeWalk (connections : List Connection) : List String :=
  (walkResult connections).1

/-- The deterministic `buildRouteFromConnections` (`src/unnamed/part_001`
lines 7-77): in/out-degree start-node search, forward directed walk, and
deterministic aggregates `round(12 + legs*8)` minutes and
`(3 + legs*2.5).toFixed(1)` km (both exact, so `round`/`toFixed` are the
identity).  `Date.now()` is the oracle parameter `now` (it only enters
the route id). -/
def buildRouteFromConnections (connections : List Connection) (now : Nat) :
    Option Route :=
  if connections.isEmpty then none else
  match startNode connections with
  | none => none
  | some _ =>
    let wr := walkResult connections
    if wr.1.length < 2 then none else
    some { id := "route-" ++ toString now,
           destinations := wr.1,
           transportModes := wr.2.map (fun c => jsOrString c.transportMode walkEmoji),
           totalTime := 12 + 8 * wr.2.length,
           totalDistanceTenths := 30 + 25 * wr.2.length }

/-- The `while (true)` loop of the `home`-based linearizer variant
(`src/unnamed/part_002` lines 15-27): find a connection touching the
current node in either direction whose other endpoint is unvisited, and
move there.  Each successful step visits a fresh node id, and only
endpoints of connections can be visited beyond `home`, so
`2 * connections.length + 1` steps of fuel reproduce the source loop. -/
def walkLoop2 (connections : List Connection) : Nat → List String → List String →
    String → List String
  | 0, route, _, _ => route
  | fuel + 1, route, visited, current =>
    match connections.find? (fun c =>
        (c.«from» == current && !(visited.contains c.«to»)) ||
        (c.«to» == current && !(visited.contains c.«from»))) with
    | none => route
    | some c =>
      let next := if c.«from» == current then c.«to» else c.«from»
      walkLoop2 connections fuel (route ++ [next]) (visited ++ [next]) next

/-- The route list walked by the `home`-based linearizer variant. -/
def routeWalk2 (connections : List Connection) : List String :=
  walkLoop2 connections (2 * connections.length + 1) ["home"] ["home"] "home"

/-- The `home`-based `buildRouteFromConnections` variant
(`src/unnamed/part_002` lines 7-42, also `part_003`): starts at `home`,
walks in either direction, and synthesizes random totals.  The draws
`Math.floor(Math.random() * 60)` (in `[0, 60)`) and
`Math.floor(Math.random() * 15)` (in `[0, 15)`) are the oracle
parameters `randTime` and `randDist`; `Date.now()` is `now`. -/
def buildRouteFromConnections2 (connections : List Connection)
    (randTime randDist : Nat) (now : Nat) : Option Route :=
  if connections.isEmpty then none else
  let route := routeWalk2 connections
  if route.length < 2 then none else
  some { id := "route-" ++ toString now,
         destinations := route,
         transportModes := (connections.take (route.length - 1)).map
           (fun c => jsOrString c.transportMode walkEmoji),
         totalTime := randTime + 20,
         totalDistanceTenths := (randDist + 3) * 10 }

/-- Result of `canNodeStartDrawing` (NavigationWheel.tsx lines 265-321):
whether a press on the node may start a draw, with the optional advisory
message shown when it may not. -/
structure DrawPermission where
  allowed : Bool
  message : Option String
  deriving DecidableEq, Repr

/-- A whitespace character, for the JS trim-to-empty test. -/
def isJsSpace (c : Char) : Bool :=
  c == ' ' || c == '\t' || c == '\n' || c == '\r'

/-- The JS test that the label trims to the empty string (the source
compares the trimmed label with the empty string literal): it holds
exactly when all characters of the string are whitespace. -/
def trimEmpty (s : String) : Bool :=
  s.data.all isJsSpace

/-- The node-validity test at the top of `canNodeStartDrawing` (line
269): the node is missing, empty, unlabeled, whitespace-labeled or the
placeholder label.  JS `!destination?.label` is subsumed by the trim
test, since the empty string trims to itself. -/
def isEmptyNodeCheck (dest : Option Destination) : Bool :=
  match dest with
  | none => true
  | some d => d.isEmpty || d.label == "" || trimEmpty d.label || d.label == "Legg til sted"

/-- `canNodeStartDrawing` (NavigationWheel.tsx lines 265-321). -/
def canNodeStartDrawing (destinations : List Destination)
    (connections : List Connection) (nodeId : String) : DrawPermission :=
  let destination := destinations.find? (fun d => d.id == nodeId)
  if isEmptyNodeCheck destination then
    { allowed := false,
      message := some "Du kan ikke koble til en tom node. Fyll inn node først!" }
  else
    let isHomeNode := nodeId == "home"
    if connections.isEmpty then
      { allowed := isHomeNode,
        message := if isHomeNode then none else
          some "Start reisen fra din posisjon (senteret)" }
    else if isHomeNode then
      let homeHasAnyConnection := connections.any fun c =>
        c.«from» == "home" || c.«to» == "home"
      if homeHasAnyConnection then
        { allowed := false,
          message := some "Fortsett reisen fra den noden du kobla til! Min posisjon kan kun koble til første stad." }
      else
        { allowed := true, message := none }
    else
      let isPointedTo := connections.any fun c => c.«to» == nodeId
      if !isPointedTo then
        { allowed := false,
          message := some "Ein node må bli peikt på før den kan peike vidare" }
      else if connections.any fun c => c.«from» == nodeId then
        { allowed := false,
          message := some "Denne noden har allereie ein forbindelse vidare" }
      else
        { allowed := true, message := none }

/-- The gesture-machine fields of `NavigationWheel` that the hover-lock
timer callback reads and writes.  The pointer coordinates, progress
interval and rendering-only fields are owned by the rendering layer and
are not part of this core state. -/
structure WheelState where
  isDrawing : Bool
  drawStart : Option String
  hoveredNode : Option String
  chainedDrawing : Bool
  connections : List Connection
  deriving DecidableEq, Repr

/-- The hover-lock timer callback (NavigationWheel.tsx lines 442-472),
fired when the 1-second hover timer elapses.  `dStartId` and
`newHoveredNode` are the values captured by the closure when the timer
was started (both non-null there, so the callback's null guard passes);
`mode`/`now` are the oracle draws consumed by `handleConnectionCreate`.
The callback creates the connection, locks it immediately, and clears
the drawing fields; it does not touch `chainedDrawing`. -/
def hoverTimerFire (dStartId newHoveredNode mode : String) (now : Nat)
    (s : WheelState) : WheelState :=
  let conns1 := handleConnectionCreate dStartId newHoveredNode mode now s.connections
  let conns2 := handleConnectionLock dStartId newHoveredNode conns1
  { s with connections := conns2, isDrawing := false, drawStart := none,
           hoveredNode := none }

/-- `createEmptyNode` (RouteVisualization.tsx lines 747-754): a fresh
placeholder node.  The id is built from `Date.now()` and a random
base-36 suffix, modelled by the oracle parameters `now` and `rand`. -/
def createEmptyNode (now : Nat) (rand : String) : Destination :=
  { id := "empty-" ++ toString now ++ "-" ++ rand,
    emoji := "+",
    label := "Legg til sted",
    color := "#E5E7EB",
    position := { angle := 0, radius := 140 },
    isCenter := false,
    isEmpty := true }

/-- `calculateEvenDistribution` (`src/unnamed/part_003` lines 406-421):
`count` angles of `(startAngle + i * 360/count) % 360` degrees.  The
`radius` parameter is unused in the source as well.  Since all operands
are non-negative here, JS `%` agrees with subtraction of the floored
quotient. -/
def calculateEvenDistribution (count : Nat) (_radius startAngle : Rat) : List Rat :=
  if count == 0 then [] else
  (List.range count).map fun i =>
    let a := startAngle + (i : Rat) * (360 / (count : Rat))
    a - 360 * ((a / 360).floor : Rat)

/-- `recalculateNodePositions` (`part_003` lines 429-449): re-derive the
angles of all non-center nodes so they are evenly spaced, putting the
(first) center node first. -/
def recalculateNodePositions (destinations : List Destination)
    (radius : Rat) : List Destination :=
  let centerNode := destinations.find? (fun d => d.isCenter)
  let otherNodes := destinations.filter (fun d => !d.isCenter)
  if otherNodes.isEmpty then destinations else
  let angles := calculateEvenDistribution otherNodes.length radius 0
  let updatedNodes := otherNodes.enum.map fun p =>
    { p.2 with position := { angle := angles.getD p.1 0, radius := radius } }
  match centerNode with
  | some c => c :: updatedNodes
  | none => updatedNodes

/-- The number of filled (non-center, non-empty) destinations.  This is
the quantity `filledNodes.length` that `handleEditDestination`
(RouteVisualization.tsx lines 866-867, 877-878) and `NavigationWheel`
(lines 93-94) compute. -/
def filledCount (destinations : List Destination) : Nat :=
  ((destinations.filter (fun d => !d.isCenter)).filter (fun d => !d.isEmpty)).length

/-- `hasEmptyNode` of `handleEditDestination` (line 868): some
non-center node is still a placeholder. -/
def hasPlaceholder (destinations : List Destination) : Bool :=
  (destinations.filter (fun d => !d.isCenter)).any (fun d => d.isEmpty)

/-- The fill step of `handleEditDestination` (RouteVisualization.tsx
lines 858-862): replace every node with the edited node id by the
edited node, with the placeholder flag cleared. -/
def fillUpdated (destination : Destination) (prev : List Destination) :
    List Destination :=
  prev.map fun d => if d.id == destination.id then
    { destination with isEmpty := false } else d

/-- `handleEditDestination` (RouteVisualization.tsx lines 853-889):
fill/update a node, append a fresh placeholder when none remains and the
filled count is below `maxDestinations`, drop all placeholders when the
maximum is reached, and re-derive the positions.  `now`/`rand` are the
oracle inputs of `createEmptyNode`. -/
def handleEditDestination (maxDestinations : Nat) (now : Nat) (rand : String)
    (destination : Destination) (prev : List Destination) : List Destination :=
  let wasEmpty := ((prev.find? (fun d => d.id == destination.id)).map
    (fun d => d.isEmpty)).getD false
  let updated := fillUpdated destination prev
  let updated :=
    if wasEmpty then
      if !(hasPlaceholder updated) && filledCount updated < maxDestinations then
        updated ++ [createEmptyNode now rand]
      else updated
    else updated
  let updated :=
    if maxDestinations ≤ filledCount updated then
      updated.filter (fun d => d.isCenter || !d.isEmpty)
    else updated
  recalculateNodePositions updated 140

/-- `hasReachedMax` (NavigationWheel.tsx line 94). -/
def hasReachedMax (destinations : List Destination) (maxDestinations : Nat) : Bool :=
  maxDestinations ≤ filledCount destinations

/-- Outcome of a normal-mode press on a placeholder node. -/
inductive PressResult where
  | maxToast
  | openEditor
  deriving DecidableEq, Repr

/-- The placeholder branch of `handlePointerDown` (NavigationWheel.tsx
lines 186-211): when the maximum is reached the press is rejected with
the advisory toast `Maks 20 destinasjoner` and nothing else happens;
otherwise the edit dialog is opened via `onNodeClick`.  In both cases
the destination list itself is untouched. -/
def pressEmptyNode (destinations : List Destination) (maxDestinations : Nat) :
    PressResult :=
  if hasReachedMax destinations maxDestinations then PressResult.maxToast
  else PressResult.openEditor

/-- An edge-set operation issued by the gesture machine: the `create`
and `lock` callbacks of the App component.  The oracle draws of `create`
(random transport mode, `Date.now()`) are carried in the operation. -/
inductive EdgeOp where
  | create («from» «to» mode : String) (now : Nat)
  | lock («from» «to» : String)
  deriving DecidableEq, Repr

/-- Apply one edge-set operation. -/
def applyEdgeOp (E : List Connection) : EdgeOp → List Connection
  | .create f t mode now => handleConnectionCreate f t mode now E
  | .lock f t => handleConnectionLock f t E

/-- Run a sequence of edge-set operations from the empty connection
list (the App's initial state). -/
def execEdgeOps (ops : List EdgeOp) : List Connection :=
  ops.foldl applyEdgeOp []

/-- Two connections relate the same unordered pair of node ids. -/
def samePair (a b : Connection) : Prop :=
  (a.«from» = b.«from» ∧ a.«to» = b.«to») ∨ (a.«from» = b.«to» ∧ a.«to» = b.«from»)

instance (a b : Connection) : Decidable (samePair a b) := by
  unfold samePair
  exact inferInstance

/-- The edge-set invariant of claim C2: no self-loops, no two
connections on the same unordered pair, and every node id is the `from`
of at most one connection. -/
def ConnInv (E : List Connection) : Prop :=
  (∀ c ∈ E, c.«from» ≠ c.«to») ∧
  List.Pairwise (fun a b => ¬ samePair a b) E ∧
  List.Pairwise (fun a b => a.«from» ≠ b.«from») E

instance (E : List Connection) : Decidable (ConnInv E) := by
  unfold ConnInv
  exact inferInstance

/-- An operation is self-loop-free when a `create` has distinct
endpoints; `lock` is unrestricted. -/
def selfFreeOp : EdgeOp → Prop
  | .create f t _ _ => f ≠ t
  | .lock _ _ => True

instance (op : EdgeOp) : Decidable (selfFreeOp op) := by
  cases op <;> (unfold selfFreeOp; exact inferInstance)

theorem dedupAux_sublist (l : List Connection) :
    ∀ seen, List.Sublist (dedupAux seen l) l := by
  induction l with
  | nil => intro seen; simp [dedupAux]
  | cons c rest ih =>
    intro seen
    unfold dedupAux
    split
    · exact (ih seen).trans (List.sublist_cons_self c rest)
    · exact (ih (seen ++ [connKey c, connKeyRev c])).cons₂ c

theorem dedupConnections_sublist (l : List Connection) :
    List.Sublist (dedupConnections l) l :=
  dedupAux_sublist l []

theorem connInv_sublist {E D : List Connection} (hs : List.Sublist D E)
    (h : ConnInv E) : ConnInv D := by
  obtain ⟨h1, h2, h3⟩ := h
  exact ⟨fun c hc => h1 c (hs.subset hc), h2.sublist hs, h3.sublist hs⟩

theorem connectionExists_false {E : List Connection} {f t : String}
    (h : connectionExists E f t = false) :
    ∀ c ∈ E, ¬ samePair c ⟨f, t, false, none, none⟩ := by
  intro c hc hp
  have := List.any_eq_false.mp h c hc
  rcases hp with ⟨hf, ht⟩ | ⟨hf, ht⟩ <;> simp [hf, ht] at this

theorem hasOutgoingConnection_false {E : List Connection} {f : String}
    (h : hasOutgoingConnection E f = false) :
    ∀ c ∈ E, c.«from» ≠ f := by
  intro c hc
  have := List.any_eq_false.mp h c hc
  simpa using this

theorem handleConnectionCreate_inv {f t : String} (mode : String) (now : Nat)
    {E : List Connection} (hft : f ≠ t) (h : ConnInv E) :
    ConnInv (handleConnectionCreate f t mode now E) := by
  have hD : ConnInv (dedupConnections E) :=
    connInv_sublist (dedupConnections_sublist E) h
  simp only [handleConnectionCreate]
  split
  · exact hD
  · rename_i hguard
    have hor : (connectionExists (dedupConnections E) f t ||
        connectionExists (dedupConnections E) t f) = false := by
      simpa using hguard
    have hex : connectionExists (dedupConnections E) f t = false :=
      (Bool.or_eq_false_iff.mp hor).1
    split
    · exact hD
    · rename_i hout
      have hout2 : hasOutgoingConnection (dedupConnections E) f = false := by
        simpa using hout
      obtain ⟨hd1, hd2, hd3⟩ := hD
      refine ⟨?_, ?_, ?_⟩
      · intro c hc
        rcases List.mem_append.mp hc with hc | hc
        · exact hd1 c hc
        · simp only [List.mem_singleton] at hc
          subst hc
          simpa using hft
      · rw [List.pairwise_append]
        refine ⟨hd2, List.pairwise_singleton _ _, ?_⟩
        intro a ha b hb
        simp only [List.mem_singleton] at hb
        subst hb
        intro hp
        exact connectionExists_false hex a ha (by
          rcases hp with ⟨h1, h2⟩ | ⟨h1, h2⟩
          · exact Or.inl ⟨h1, h2⟩
          · exact Or.inr ⟨h1, h2⟩)
      · rw [List.pairwise_append]
        refine ⟨hd3, List.pairwise_singleton _ _, ?_⟩
        intro a ha b hb
        simp only [List.mem_singleton] at hb
        subst hb
        exact hasOutgoingConnection_false hout2 a ha

theorem lockMap_from («from» «to» : String) (c : Connection) :
    ((if (c.«from» == «from» && c.«to» == «to») ||
        (c.«from» == «to» && c.«to» == «from») then
      { c with isLocked := true } else c) : Connection).«from» = c.«from» := by
  split <;> rfl

theorem lockMap_to («from» «to» : String) (c : Connection) :
    ((if (c.«from» == «from» && c.«to» == «to») ||
        (c.«from» == «to» && c.«to» == «from») then
      { c with isLocked := true } else c) : Connection).«to» = c.«to» := by
  split <;> rfl

theorem handleConnectionLock_inv (f t : String) {E : List Connection}
    (h : ConnInv E) : ConnInv (handleConnectionLock f t E) := by
  obtain ⟨h1, h2, h3⟩ := h
  unfold handleConnectionLock
  refine ⟨?_, ?_, ?_⟩
  · intro c hc
    obtain ⟨d, hd, hdc⟩ := List.mem_map.mp hc
    subst hdc
    rw [lockMap_from f t d, lockMap_to f t d]
    exact h1 d hd
  · rw [List.pairwise_map]
    refine h2.imp_of_mem ?_
    intro a b _ _ hab hp
    apply hab
    unfold samePair at hp ⊢
    rwa [lockMap_from f t a, lockMap_to f t a, lockMap_from f t b,
      lockMap_to f t b] at hp
  · rw [List.pairwise_map]
    refine h3.imp_of_mem ?_
    intro a b _ _ hab hp
    apply hab
    rwa [lockMap_from f t a, lockMap_from f t b] at hp

theorem execEdgeOps_inv_aux (ops : List EdgeOp) :
    ∀ E, ConnInv E → (∀ op ∈ ops, selfFreeOp op) →
      ConnInv (ops.foldl applyEdgeOp E) := by
  induction ops with
  | nil => intro E hE _; simpa using hE
  | cons op rest ih =>
    intro E hE hops
    rw [List.foldl_cons]
    refine ih (applyEdgeOp E op) ?_ (fun o ho => hops o (List.mem_cons_of_mem op ho))
    have hop := hops op (List.mem_cons_self op rest)
    cases op with
    | create f t mode now => exact handleConnectionCreate_inv mode now hop hE
    | lock f t => exact handleConnectionLock_inv f t hE

/-- Claim C2, as stated, is false: `handleConnectionCreate` never checks
`from ≠ to`, so a single create call with equal endpoints produces a
self-loop from the empty list, violating the `from ≠ to` part of the
invariant at the explicit input `create "a" "a"`. -/
theorem C2_counterexample :
    execEdgeOps [EdgeOp.create ("a") ("a") ("m") 0] =
      [⟨"a", "a", false, some "m", some 0⟩] ∧
    ¬ ConnInv (execEdgeOps [EdgeOp.create ("a") ("a") ("m") 0]) := by
  constructor
  · rfl
  · decide

/-- Claim C2 (amended): starting from the empty connection list, after
any sequence of `handleConnectionCreate` and `handleConnectionLock`
operations in which every create call has distinct endpoints (the
gesture machine never issues a self-loop create, since hover detection
excludes the draw-start node), every connection satisfies `from ≠ to`,
no two connections relate the same unordered pair of node ids, and every
node id occurs as the `from` of at most one connection. -/
theorem C2_invariant_holds (ops : List EdgeOp)
    (h : ∀ op ∈ ops, selfFreeOp op) : ConnInv (execEdgeOps ops) :=
  execEdgeOps_inv_aux ops [] ⟨by simp, by simp, by simp⟩ h

/-- Witness for C2: a concrete create/lock/create sequence satisfies the
hypothesis and the resulting three-field invariant. -/
theorem C2_invariant_holds_witness :
    (∀ op ∈ [EdgeOp.create ("home") ("park") ("🚌") 1,
             EdgeOp.lock ("home") ("park"),
             EdgeOp.create ("park") ("cafe") ("🚲") 2], selfFreeOp op) ∧
    ConnInv (execEdgeOps [EdgeOp.create ("home") ("park") ("🚌") 1,
             EdgeOp.lock ("home") ("park"),
             EdgeOp.create ("park") ("cafe") ("🚲") 2]) :=
  ⟨by decide, C2_invariant_holds _ (by decide)⟩

/-- No two distinct connections of the list collide on the dash-joined
keys used by the dedup pass, in either direction.  This strengthens the
no-duplicate-pair invariant: equal unordered pairs give equal keys, but
distinct pairs can also collide because `-` may occur inside node ids. -/
def keyFree (E : List Connection) : Prop :=
  List.Pairwise (fun a b => connKey a ≠ connKey b ∧ connKey a ≠ connKeyRev b ∧
    connKeyRev a ≠ connKey b ∧ connKeyRev a ≠ connKeyRev b) E

instance (E : List Connection) : Decidable (keyFree E) := by
  unfold keyFree
  exact inferInstance

theorem dedupAux_eq_self {E : List Connection} :
    ∀ seen, (∀ c ∈ E, ¬ seen.contains (connKey c) ∧ ¬ seen.contains (connKeyRev c)) →
      keyFree E → dedupAux seen E = E := by
  induction E with
  | nil => intro seen _ _; rfl
  | cons c rest ih =>
    intro seen hseen hkey
    have hc := hseen c (List.mem_cons_self c rest)
    unfold dedupAux
    rw [if_neg (by simp only [Bool.or_eq_true, not_or]; exact ⟨hc.1, hc.2⟩)]
    congr 1
    refine ih (seen ++ [connKey c, connKeyRev c]) ?_ (List.Pairwise.of_cons hkey)
    intro d hd
    obtain ⟨hda, hdb⟩ := hseen d (List.mem_cons_of_mem c hd)
    obtain ⟨r1, r2, r3, r4⟩ := (List.pairwise_cons.mp hkey).1 d hd
    constructor
    · simp at hda ⊢
      exact ⟨hda, fun h => r1 h.symm, fun h => r3 h.symm⟩
    · simp at hdb ⊢
      exact ⟨hdb, fun h => r2 h.symm, fun h => r4 h.symm⟩

theorem dedupConnections_eq_self {E : List Connection} (hkey : keyFree E) :
    dedupConnections E = E :=
  dedupAux_eq_self [] (by intro c _; simp [List.contains]) hkey

/-- Claim C6, as stated, is false: the defensive dedup pass inside
`handleConnectionCreate` keys connections by the string
`from ++ "-" ++ to`, and node ids may themselves contain `-`, so two
connections on distinct unordered pairs can collide (here
`("a-b", "c")` and `("a", "b-c")` both key to `a-b-c`).  The list below
satisfies the spec's invariant (no self-loops, no duplicate unordered
pair, out-degree ≤ 1) and already contains the requested edge, yet the
call drops the second connection instead of leaving the list
unchanged. -/
theorem C6_counterexample :
    ConnInv [⟨"a-b", "c", false, none, none⟩, ⟨"a", "b-c", false, none, none⟩] ∧
    connectionExists [⟨"a-b", "c", false, none, none⟩,
      ⟨"a", "b-c", false, none, none⟩] ("a-b") ("c") = true ∧
    handleConnectionCreate ("a-b") ("c") ("m") 0
        [⟨"a-b", "c", false, none, none⟩, ⟨"a", "b-c", false, none, none⟩] ≠
      [⟨"a-b", "c", false, none, none⟩, ⟨"a", "b-c", false, none, none⟩] := by
  refine ⟨by decide, by decide, by decide⟩

/-- Claim C6 (amended): for every connection list `E` in which no two
connections collide on the dash-joined dedup keys in either direction (a
strengthening of the no-duplicate invariant that also rules out
collisions caused by `-` inside node ids), if `E` already contains a
connection between `from` and `to` in either direction then
`handleConnectionCreate` leaves the list unchanged. -/
theorem C6_idempotent (E : List Connection) («from» «to» mode : String) (now : Nat)
    (hkey : keyFree E) (hex : connectionExists E «from» «to» = true) :
    handleConnectionCreate «from» «to» mode now E = E := by
  simp [handleConnectionCreate, dedupConnections_eq_self hkey, hex]

/-- Witness for C6: a two-element key-collision-free list containing the
requested edge is returned unchanged. -/
theorem C6_idempotent_witness :
    keyFree [⟨"home", "park", true, some "🚌", some 1⟩,
             ⟨"park", "cafe", false, none, none⟩] ∧
    connectionExists [⟨"home", "park", true, some "🚌", some 1⟩,
      ⟨"park", "cafe", false, none, none⟩] ("park") ("home") = true ∧
    handleConnectionCreate ("park") ("home") ("m") 3
        [⟨"home", "park", true, some "🚌", some 1⟩,
         ⟨"park", "cafe", false, none, none⟩] =
      [⟨"home", "park", true, some "🚌", some 1⟩,
       ⟨"park", "cafe", false, none, none⟩] :=
  ⟨by decide, by decide,
    C6_idempotent _ ("park") ("home") ("m") 3 (by decide) (by decide)⟩

/-- Claim C10: `handleConnectionLock` preserves the length and order of
the list, preserves the `from`, `to`, `transportMode` and `createdAt`
fields of every connection, sets `isLocked` on every connection whose
endpoints are the requested pair in either orientation, and leaves the
`isLocked` field of every other connection unchanged. -/
theorem C10_lock_frame (E : List Connection) («from» «to» : String) :
    (handleConnectionLock «from» «to» E).length = E.length ∧
    ∀ (i : Nat) (c : Connection), E[i]? = some c →
      ∃ d, (handleConnectionLock «from» «to» E)[i]? = some d ∧
        d.«from» = c.«from» ∧ d.«to» = c.«to» ∧
        d.transportMode = c.transportMode ∧ d.createdAt = c.createdAt ∧
        d.isLocked = (if (c.«from» == «from» && c.«to» == «to») ||
          (c.«from» == «to» && c.«to» == «from») then true else c.isLocked) := by
  constructor
  · exact List.length_map E _
  · intro i c hc
    refine ⟨if (c.«from» == «from» && c.«to» == «to») ||
        (c.«from» == «to» && c.«to» == «from») then
      { c with isLocked := true } else c, ?_, ?_⟩
    · unfold handleConnectionLock
      rw [List.getElem?_map, hc]
      rfl
    · split <;> exact ⟨rfl, rfl, rfl, rfl, rfl⟩

/-- Witness for C10 at a two-element list and index 1, where the lock
request matches the connection in reversed orientation. -/
theorem C10_lock_frame_witness :
    ([⟨"home", "park", true, some "🚌", some 1⟩,
      ⟨"cafe", "park", false, some "🚲", some 2⟩] : List Connection)[1]? =
        some ⟨"cafe", "park", false, some "🚲", some 2⟩ ∧
    ∃ d, (handleConnectionLock ("park") ("cafe")
        [⟨"home", "park", true, some "🚌", some 1⟩,
         ⟨"cafe", "park", false, some "🚲", some 2⟩])[1]? = some d ∧
      d.«from» = "cafe" ∧ d.«to» = "park" ∧
      d.transportMode = some "🚲" ∧ d.createdAt = some 2 ∧
      d.isLocked = (if (("cafe" : String) == "park" && ("park" : String) == "cafe") ||
        (("cafe" : String) == "cafe" && ("park" : String) == "park") then true
        else false) :=
  ⟨rfl, (C10_lock_frame
    [⟨"home", "park", true, some "🚌", some 1⟩,
     ⟨"cafe", "park", false, some "🚲", some 2⟩] ("park") ("cafe")).2 1
    ⟨"cafe", "park", false, some "🚲", some 2⟩ rfl⟩

/-- Claim C1 fails on the `home`-based linearizer variant
(`src/unnamed/part_002`, also `part_003`), whose aggregate totals come
from `Math.random()`: on the same one-edge connection list, the draw
`floor(random * 60) = 0` of a first call yields `totalTime = 20` while
the draw `1` of a second call yields `21`, so two calls on the same edge
set return different Routes.  (The deterministic variant in `part_001`,
embedded as `buildRouteFromConnections`, has no random input at all, so
its node order, per-leg tags and totals cannot differ between calls.) -/
theorem C1_random_variant_nondeterministic :
    (buildRouteFromConnections2 [⟨"home", "park", false, some "🚌", some 1⟩]
      0 0 7).map (fun r => r.totalTime) = some 20 ∧
    (buildRouteFromConnections2 [⟨"home", "park", false, some "🚌", some 1⟩]
      1 0 7).map (fun r => r.totalTime) = some 21 ∧
    buildRouteFromConnections2 [⟨"home", "park", false, some "🚌", some 1⟩] 0 0 7 ≠
      buildRouteFromConnections2 [⟨"home", "park", false, some "🚌", some 1⟩] 1 0 7 := by
  refine ⟨by decide, by decide, by decide⟩

/-- Claim C3 fails on the `home`-based linearizer variant: on the single
connection `a → b`, the node `a` has in-degree 0 and out-degree 1, so
the claimed start-node rule walks `[a, b]` — which is what the
deterministic variant does — but the `part_002`/`part_003` variant
always starts at `home`, finds no connection touching `home`, and
returns `null`. -/
theorem C3_variants_diverge :
    (buildRouteFromConnections [⟨"a", "b", false, some "🚌", some 1⟩] 7).map
      (fun r => r.destinations) = some ["a", "b"] ∧
    buildRouteFromConnections2 [⟨"a", "b", false, some "🚌", some 1⟩] 0 0 7 = none := by
  refine ⟨by decide, by decide⟩

/-- Claim C7 fails: `handleClearConnections` only empties the connection
list; the hover-lock, lock-confirmation and long-press timers live in
`NavigationWheel` and are not cancelled, and the hover-lock callback has
no staleness guard.  A stale hover-lock timer for `(home, park)` firing
after the clear re-creates and locks that edge in the cleared list,
changing the connection list. -/
theorem C7_stale_timer_mutates :
    handleClearConnections [⟨"home", "shopping", true, some "🚌", some 1⟩] = [] ∧
    (hoverTimerFire ("home") ("park") ("🚕") 9
      { isDrawing := true, drawStart := some "home", hoveredNode := some "park",
        chainedDrawing := false,
        connections := handleClearConnections
          [⟨"home", "shopping", true, some "🚌", some 1⟩] }).connections =
      [⟨"home", "park", true, some "🚕", some 9⟩] := by
  refine ⟨rfl, by decide⟩

/-- Claim C4, as stated, is false: with a non-empty edge set,
`canNodeStartDrawing` denies the origin whenever `home` is an endpoint
of ANY connection — `from` or `to` — not only when it is a `from`.  At
the explicit input `E = [park → home]` the origin was never the `from`
of a connection, so the claim would permit it to start a draw, but the
code denies it. -/
theorem C4_counterexample :
    (∀ c ∈ ([⟨"park", "home", false, none, none⟩] : List Connection),
      c.«from» ≠ "home") ∧
    (canNodeStartDrawing
      [⟨"home", "📍", "Min posisjon", "#3B82F6", ⟨0, 0⟩, true, false⟩,
       ⟨"park", "🌳", "Park", "#22C55E", ⟨45, 140⟩, false, false⟩]
      [⟨"park", "home", false, none, none⟩] ("home")).allowed = false := by
  refine ⟨by decide, by decide⟩

/-- Claim C4 (amended): for every node `n` that resolves to a
non-placeholder destination (present, not flagged empty, with a
non-whitespace label other than the placeholder label), starting a draw
from `n` on an empty edge set is permitted iff `n` is the origin
`home`; and on a non-empty edge set the origin is permitted iff it is
not an endpoint — neither `from` nor `to` — of any connection. -/
theorem C4_origin_start (destinations : List Destination)
    (connections : List Connection) (n : String) (d0 : Destination)
    (hfind : destinations.find? (fun d => d.id == n) = some d0)
    (hempty : d0.isEmpty = false) (htrim : trimEmpty d0.label = false)
    (hph : d0.label ≠ "Legg til sted") :
    (connections = [] →
      ((canNodeStartDrawing destinations connections n).allowed = true ↔
        n = "home")) ∧
    (n = "home" → connections ≠ [] →
      ((canNodeStartDrawing destinations connections n).allowed = true ↔
        ∀ c ∈ connections, c.«from» ≠ "home" ∧ c.«to» ≠ "home")) := by
  have hl0 : d0.label ≠ "" := fun h => by
    rw [h] at htrim
    exact absurd htrim (by decide)
  have hchk : isEmptyNodeCheck (destinations.find? (fun d => d.id == n)) = false := by
    rw [hfind]
    simp [isEmptyNodeCheck, hempty, hl0, htrim, hph]
  constructor
  · intro hE
    subst hE
    simp [canNodeStartDrawing, hchk]
  · intro hn hE
    subst hn
    have hne : connections.isEmpty = false := by
      cases connections with
      | nil => exact absurd rfl hE
      | cons a l => rfl
    rcases hany : connections.any (fun c =>
        c.«from» == "home" || c.«to» == "home") with _ | _
    · constructor
      · intro _ c hc
        have h2 := List.any_eq_false.mp hany c hc
        simp at h2
        exact h2
      · intro _
        simp [canNodeStartDrawing, hchk, hne, hany]
    · constructor
      · intro hall
        simp [canNodeStartDrawing, hchk, hne, hany] at hall
      · intro hall
        obtain ⟨c, hc, hcp⟩ := List.any_eq_true.mp hany
        rcases Bool.or_eq_true_iff.mp hcp with h | h
        · exact absurd (by simpa using h) (hall c hc).1
        · exact absurd (by simpa using h) (hall c hc).2

/-- Witness for C4: with the standard node list, an untouched origin and
edge set `[park → cafe]`, both parts of the amended statement hold at
the origin; the empty-edge-set part is vacuous and the non-empty part
permits `home`. -/
theorem C4_origin_start_witness :
    ([⟨"home", "📍", "Min posisjon", "#3B82F6", ⟨0, 0⟩, true, false⟩,
      ⟨"park", "🌳", "Park", "#22C55E", ⟨45, 140⟩, false, false⟩]
        : List Destination).find? (fun d => d.id == "home") =
      some ⟨"home", "📍", "Min posisjon", "#3B82F6", ⟨0, 0⟩, true, false⟩ ∧
    (([⟨"park", "cafe", false, none, none⟩] : List Connection) = [] →
      ((canNodeStartDrawing
        [⟨"home", "📍", "Min posisjon", "#3B82F6", ⟨0, 0⟩, true, false⟩,
         ⟨"park", "🌳", "Park", "#22C55E", ⟨45, 140⟩, false, false⟩]
        [⟨"park", "cafe", false, none, none⟩] ("home")).allowed = true ↔
        ("home" : String) = "home")) ∧
    (("home" : String) = "home" →
      ([⟨"park", "cafe", false, none, none⟩] : List Connection) ≠ [] →
      ((canNodeStartDrawing
        [⟨"home", "📍", "Min posisjon", "#3B82F6", ⟨0, 0⟩, true, false⟩,
         ⟨"park", "🌳", "Park", "#22C55E", ⟨45, 140⟩, false, false⟩]
        [⟨"park", "cafe", false, none, none⟩] ("home")).allowed = true ↔
        ∀ c ∈ ([⟨"park", "cafe", false, none, none⟩] : List Connection),
          c.«from» ≠ "home" ∧ c.«to» ≠ "home")) :=
  ⟨rfl, C4_origin_start
    [⟨"home", "📍", "Min posisjon", "#3B82F6", ⟨0, 0⟩, true, false⟩,
     ⟨"park", "🌳", "Park", "#22C55E", ⟨45, 140⟩, false, false⟩]
    [⟨"park", "cafe", false, none, none⟩] ("home")
    ⟨"home", "📍", "Min posisjon", "#3B82F6", ⟨0, 0⟩, true, false⟩
    rfl rfl (by decide) (by decide)⟩

theorem connectionExists_comm (E : List Connection) (f t : String) :
    connectionExists E t f = connectionExists E f t := by
  induction E with
  | nil => rfl
  | cons c rest ih =>
    simp only [connectionExists, List.any_cons] at *
    rw [ih]
    cases h1 : c.«from» == t <;> cases h2 : c.«to» == f <;>
      cases h3 : c.«from» == f <;> cases h4 : c.«to» == t <;> rfl

theorem handleConnectionLock_of_not_exists {E : List Connection} {f t : String}
    (h : connectionExists E f t = false) : handleConnectionLock f t E = E := by
  induction E with
  | nil => rfl
  | cons c rest ih =>
    simp only [connectionExists, List.any_cons, Bool.or_eq_false_iff] at h
    simp only [handleConnectionLock, List.map_cons]
    rw [if_neg (by simp [h.1]), show rest.map _ = handleConnectionLock f t rest
      from rfl, ih h.2]

/-- Claim C5, as stated, is false: the hover-lock timer callback routes
edge creation through `handleConnectionCreate`, which also refuses to
create when the draw-source node already has an outgoing connection.
In a drawing state from `b` with edge set `[b → c]` — reachable through
the chained-drawing continuation after a manual-release lock — no edge
between `b` and the hovered candidate `d` exists in either direction,
yet firing the timer adds no edge at all. -/
theorem C5_counterexample :
    connectionExists [⟨"b", "c", false, none, none⟩] ("b") ("d") = false ∧
    connectionExists [⟨"b", "c", false, none, none⟩] ("d") ("b") = false ∧
    (hoverTimerFire ("b") ("d") ("m") 0
      { isDrawing := true, drawStart := some "b", hoveredNode := some "d",
        chainedDrawing := false,
        connections := [⟨"b", "c", false, none, none⟩] }).connections =
      [⟨"b", "c", false, none, none⟩] := by
  refine ⟨by decide, by decide, by decide⟩

/-- Claim C5 (amended): when the hover-lock timer elapses during a plain
draw from `F` over candidate `cand`, and `F` has no outgoing connection
in the (deduplicated) edge set — which holds whenever the draw from `F`
was started under `canNodeStartDrawing` and no edge from `F` was added
meanwhile — the machine appends the edge `(F, cand)` already locked if
no edge between them exists in either direction, otherwise adds nothing
and locks the existing edge; in both cases it clears the drawing state
(`isDrawing`, `drawStart`, hover) so no new draw starts automatically. -/
theorem C5_hover_lock (s : WheelState) (F cand mode : String) (now : Nat)
    (_hdraw : s.isDrawing = true) (_hstart : s.drawStart = some F)
    (hchain : s.chainedDrawing = false)
    (hout : hasOutgoingConnection (dedupConnections s.connections) F = false) :
    (connectionExists (dedupConnections s.connections) F cand = false →
      (hoverTimerFire F cand mode now s).connections =
        dedupConnections s.connections ++
          [⟨F, cand, true, some mode, some now⟩]) ∧
    (connectionExists (dedupConnections s.connections) F cand = true →
      (hoverTimerFire F cand mode now s).connections =
        handleConnectionLock F cand (dedupConnections s.connections)) ∧
    (hoverTimerFire F cand mode now s).isDrawing = false ∧
    (hoverTimerFire F cand mode now s).drawStart = none ∧
    (hoverTimerFire F cand mode now s).hoveredNode = none ∧
    (hoverTimerFire F cand mode now s).chainedDrawing = false := by
  refine ⟨?_, ?_, rfl, rfl, rfl, by simpa using hchain⟩
  · intro hex
    have hrev : connectionExists (dedupConnections s.connections) cand F = false := by
      rw [connectionExists_comm]
      exact hex
    show handleConnectionLock F cand
      (handleConnectionCreate F cand mode now s.connections) = _
    rw [show handleConnectionCreate F cand mode now s.connections =
      dedupConnections s.connections ++ [⟨F, cand, false, some mode, some now⟩] by
        simp [handleConnectionCreate, hex, hrev, hout]]
    unfold handleConnectionLock
    rw [List.map_append]
    rw [show (dedupConnections s.connections).map _ =
      handleConnectionLock F cand (dedupConnections s.connections) from rfl,
      handleConnectionLock_of_not_exists hex]
    simp [handleConnectionLock]
  · intro hex
    show handleConnectionLock F cand
      (handleConnectionCreate F cand mode now s.connections) = _
    rw [show handleConnectionCreate F cand mode now s.connections =
      dedupConnections s.connections by simp [handleConnectionCreate, hex]]

/-- Witness for C5 at a drawing state from `home` over candidate `park`
with one unrelated connection: the edge is created locked and the
drawing state is cleared. -/
theorem C5_hover_lock_witness :
    ({ isDrawing := true, drawStart := some "home", hoveredNode := some "park",
       chainedDrawing := false,
       connections := [⟨"park", "cafe", false, none, none⟩] } : WheelState).isDrawing
        = true ∧
    hasOutgoingConnection (dedupConnections
      [⟨"park", "cafe", false, none, none⟩]) ("home") = false ∧
    (connectionExists (dedupConnections [⟨"park", "cafe", false, none, none⟩])
        ("home") ("park") = false →
      (hoverTimerFire ("home") ("park") ("🚌") 4
        { isDrawing := true, drawStart := some "home", hoveredNode := some "park",
          chainedDrawing := false,
          connections := [⟨"park", "cafe", false, none, none⟩] }).connections =
        dedupConnections [⟨"park", "cafe", false, none, none⟩] ++
          [⟨"home", "park", true, some "🚌", some 4⟩]) :=
  ⟨rfl, by decide,
    (C5_hover_lock
      { isDrawing := true, drawStart := some "home", hoveredNode := some "park",
        chainedDrawing := false,
        connections := [⟨"park", "cafe", false, none, none⟩] }
      ("home") ("park") ("🚌") 4 rfl rfl rfl (by decide)).1⟩

theorem startNode_cons (c : Connection) (tl : List Connection) :
    ∃ s, startNode (c :: tl) = some s := by
  unfold startNode
  rcases hfind : (allNodes (c :: tl)).find? (fun n =>
      incomingCount (c :: tl) n == 0 && !(outgoingCount (c :: tl) n == 0)) with
    _ | s
  · exact ⟨c.«from», by simp⟩
  · exact ⟨s, rfl⟩

/-- Claim C8: both linearizer variants return `null` exactly on the
empty connection list or when the walked route has fewer than 2 nodes,
and a non-null Route otherwise. -/
theorem C8_null_characterization :
    (∀ (connections : List Connection) (now : Nat),
      buildRouteFromConnections connections now = none ↔
        connections = [] ∨ (routeWalk connections).length < 2) ∧
    (∀ (connections : List Connection) (randTime randDist now : Nat),
      buildRouteFromConnections2 connections randTime randDist now = none ↔
        connections = [] ∨ (routeWalk2 connections).length < 2) := by
  constructor
  · intro connections now
    cases connections with
    | nil => simp [buildRouteFromConnections]
    | cons c tl =>
      obtain ⟨s, hs⟩ := startNode_cons c tl
      rw [buildRouteFromConnections]
      simp only [List.isEmpty_cons, if_false, hs, Bool.false_eq_true]
      unfold routeWalk walkResult
      rw [hs]
      constructor
      · intro h
        by_cases hlt : (walkLoop (c :: tl) (c :: tl).length [s] [s] [] [] s).1.length < 2
        · exact Or.inr hlt
        · rw [if_neg hlt] at h
          exact absurd h (by simp)
      · intro h
        rcases h with h | h
        · exact absurd h (by simp)
        · rw [if_pos h]
  · intro connections randTime randDist now
    cases connections with
    | nil => simp [buildRouteFromConnections2]
    | cons c tl =>
      rw [buildRouteFromConnections2]
      simp only [List.isEmpty_cons, if_false, Bool.false_eq_true]
      constructor
      · intro h
        by_cases hlt : (routeWalk2 (c :: tl)).length < 2
        · exact Or.inr hlt
        · rw [if_neg hlt] at h
          exact absurd h (by simp)
      · intro h
        rcases h with h | h
        · exact absurd h (by simp)
        · rw [if_pos h]

theorem snd_mem_of_mem_enumFrom {x : Nat × Destination} :
    ∀ {n : Nat} {l : List Destination}, x ∈ List.enumFrom n l → x.2 ∈ l := by
  intro n l
  induction l generalizing n with
  | nil => intro h; simp at h
  | cons d tl ih =>
    intro h
    rw [List.enumFrom_cons] at h
    rcases List.mem_cons.mp h with h | h
    · subst h; exact List.mem_cons_self d tl
    · exact List.mem_cons_of_mem d (ih h)

theorem enumFrom_map_filter_length (p : Destination → Bool)
    (f : Nat × Destination → Destination)
    (hf : ∀ i d, p (f (i, d)) = p d) :
    ∀ (n : Nat) (l : List Destination),
      (((List.enumFrom n l).map f).filter p).length = (l.filter p).length := by
  intro n l
  induction l generalizing n with
  | nil => rfl
  | cons d tl ih =>
    rw [List.enumFrom_cons, List.map_cons, List.filter_cons, List.filter_cons, hf n d]
    cases p d <;> simp [ih]

theorem filter_isCenter_length_one {l : List Destination} {c : Destination}
    (hfind : l.find? (fun d => d.isCenter) = some c)
    (hcnt : (l.filter (fun d => d.isCenter)).length ≤ 1) :
    (l.filter (fun d => d.isCenter)).length = 1 := by
  refine le_antisymm hcnt ?_
  have hc : c ∈ l.filter (fun d => d.isCenter) :=
    List.mem_filter.mpr ⟨List.mem_of_find?_eq_some hfind, List.find?_some hfind⟩
  exact List.length_pos.mpr (fun h => by simp [h] at hc)

theorem recalc_length {l : List Destination} (radius : Rat)
    (hcnt : (l.filter (fun d => d.isCenter)).length ≤ 1) :
    (recalculateNodePositions l radius).length = l.length := by
  unfold recalculateNodePositions
  rcases hemp : (l.filter (fun d => !d.isCenter)).isEmpty with _ | _
  · rcases hfind : l.find? (fun d => d.isCenter) with _ | c
    · have hall : ∀ d ∈ l, d.isCenter = false := fun d hd => by
        simpa using List.find?_eq_none.mp hfind d hd
      have hfeq : l.filter (fun d => !d.isCenter) = l :=
        List.filter_eq_self.mpr (fun d hd => by simp [hall d hd])
      simp only [hemp, Bool.false_eq_true, if_false]
      simp only [hfind]
      simp [List.enum_length]
      exact hall
    · have h1 : (l.filter (fun d => d.isCenter)).length = 1 :=
        filter_isCenter_length_one hfind hcnt
      have h2 : l.length = 1 + (l.filter (fun d => !d.isCenter)).length := by
        have h3 := List.length_eq_length_filter_add (l := l) (fun d => d.isCenter)
        simp only [h1] at h3
        simpa using h3
      simp [hemp, hfind, List.enum_length]
      omega
  · simp [hemp]

theorem filter_notCenter_filter {p : Destination → Bool}
    (hpc : ∀ d : Destination, d.isCenter = true → p d = false)
    (l : List Destination) :
    (l.filter (fun d => !d.isCenter)).filter p = l.filter p := by
  rw [List.filter_filter]
  apply List.filter_congr
  intro d _
  rcases hq : p d with _ | _
  · simp [hq]
  · have hcc : d.isCenter = false := by
      rcases hcen : d.isCenter with _ | _
      · rfl
      · rw [hpc d hcen] at hq
        exact absurd hq (by simp)
    simp [hq, hcc]

theorem recalc_countP (p : Destination → Bool)
    (hp : ∀ (d : Destination) (pos : Pos), p { d with position := pos } = p d)
    (hpc : ∀ d : Destination, d.isCenter = true → p d = false)
    (l : List Destination) (radius : Rat) :
    ((recalculateNodePositions l radius).filter p).length = (l.filter p).length := by
  have hkey := enumFrom_map_filter_length p
    (fun q => { q.2 with position :=
      { angle := (calculateEvenDistribution
          ((l.filter (fun d => !d.isCenter)).length) radius 0).getD q.1 0,
        radius := radius } })
    (fun i d => hp d _) 0 (l.filter (fun d => !d.isCenter))
  unfold recalculateNodePositions
  rcases hemp : (l.filter (fun d => !d.isCenter)).isEmpty with _ | _
  · simp only [hemp, Bool.false_eq_true, if_false]
    rcases hfind : l.find? (fun d => d.isCenter) with _ | c
    · simp only [hfind, List.enum]
      rw [hkey]
      exact congrArg List.length (filter_notCenter_filter hpc l)
    · have hc : p c = false := hpc c (by simpa using List.find?_some hfind)
      simp only [hfind]
      rw [List.filter_cons_of_neg (by simp [hc])]
      simp only [List.enum]
      rw [hkey]
      exact congrArg List.length (filter_notCenter_filter hpc l)
  · simp [hemp]

theorem recalc_mem {l : List Destination} {radius : Rat} {d : Destination}
    (hd : d ∈ recalculateNodePositions l radius) :
    ∃ d0 ∈ l, d.id = d0.id ∧ d.isEmpty = d0.isEmpty := by
  simp only [recalculateNodePositions] at hd
  split at hd
  · exact ⟨d, hd, rfl, rfl⟩
  · split at hd
    · rename_i c hfind
      rcases List.mem_cons.mp hd with h | h
      · exact ⟨c, List.mem_of_find?_eq_some hfind, by rw [h], by rw [h]⟩
      · obtain ⟨x, hx, hxd⟩ := List.mem_map.mp h
        refine ⟨x.2, List.mem_of_mem_filter
          (snd_mem_of_mem_enumFrom (by simpa [List.enum] using hx)), ?_, ?_⟩ <;>
          · rw [← hxd]
    · obtain ⟨x, hx, hxd⟩ := List.mem_map.mp hd
      refine ⟨x.2, List.mem_of_mem_filter
        (snd_mem_of_mem_enumFrom (by simpa [List.enum] using hx)), ?_, ?_⟩ <;>
        · rw [← hxd]

theorem fillUpdated_length (dest : Destination) (prev : List Destination) :
    (fillUpdated dest prev).length = prev.length :=
  List.length_map prev _

theorem fillUpdated_id_cleared (dest : Destination) (prev : List Destination) :
    ∀ d ∈ fillUpdated dest prev, d.id = dest.id → d.isEmpty = false := by
  intro d hd hid
  obtain ⟨d0, _, hmap⟩ := List.mem_map.mp hd
  by_cases h : (d0.id == dest.id) = true
  · rw [if_pos h] at hmap
    rw [← hmap]
  · rw [if_neg h] at hmap
    subst hmap
    exact absurd hid (by simpa using h)

theorem length_filter_map_le (f : Destination → Destination)
    (p : Destination → Bool) (hf : ∀ d, p (f d) = true → p d = true)
    (l : List Destination) :
    ((l.map f).filter p).length ≤ (l.filter p).length := by
  induction l with
  | nil => simp
  | cons d tl ih =>
    simp only [List.map_cons, List.filter_cons]
    rcases h : p (f d) with _ | _
    · rcases h2 : p d with _ | _
      · simpa using ih
      · simp only [if_pos rfl, List.length_cons]
        exact le_trans ih (Nat.le_succ _)
    · rw [hf d h]
      simpa using ih

theorem fillUpdated_center_le (dest : Destination) (hcen : dest.isCenter = false)
    (prev : List Destination) :
    ((fillUpdated dest prev).filter (fun d => d.isCenter)).length ≤
      (prev.filter (fun d => d.isCenter)).length := by
  refine length_filter_map_le _ _ ?_ prev
  intro d h
  by_cases hm : (d.id == dest.id) = true
  · rw [if_pos hm] at h
    simp only at h
    rw [hcen] at h
    exact absurd h (by simp)
  · rwa [if_neg hm] at h

theorem filledCount_append_placeholder (l : List Destination) (e : Destination)
    (hc : e.isCenter = false) (he : e.isEmpty = true) :
    filledCount (l ++ [e]) = filledCount l := by
  simp [filledCount, List.filter_append, hc, he]

theorem placeholderCount_eq_zero {l : List Destination}
    (h : hasPlaceholder l = false) :
    (l.filter (fun d => !d.isCenter && d.isEmpty)).length = 0 := by
  rw [List.length_eq_zero]
  refine List.filter_eq_nil_iff.mpr ?_
  intro d hd hq
  rw [Bool.and_eq_true] at hq
  have hmem : d ∈ l.filter (fun x => !x.isCenter) :=
    List.mem_filter.mpr ⟨hd, hq.1⟩
  have := List.any_eq_false.mp (by simpa [hasPlaceholder] using h) d hmem
  simp [hq.2] at this

theorem recalc_id_cleared {X : List Destination} {radius : Rat} {targetId : String}
    (hX : ∀ d ∈ X, d.id = targetId → d.isEmpty = false) :
    ∀ d ∈ recalculateNodePositions X radius, d.id = targetId → d.isEmpty = false := by
  intro d hd hid
  obtain ⟨d0, hd0, hidq, hemq⟩ := recalc_mem hd
  rw [hemq]
  exact hX d0 hd0 (by rw [← hidq]; exact hid)

/-- Claim C9: filling a placeholder node clears its placeholder flag;
exactly one fresh placeholder is appended iff, after the fill, no
placeholder remains among the non-origin nodes and the filled-node
count is below the configured maximum; and once the maximum is reached,
a press on a placeholder node is rejected with the advisory toast and
nothing is changed, so no placeholder is appended.  The hypotheses say
that the edited id resolves to a placeholder node, that the edited node
is not the origin, that at most one origin exists, and that the fresh
placeholder id (built from the time and random draws) is not the edited
id. -/
theorem C9_fill_placeholder (maxDestinations now : Nat) (rand : String)
    (dest : Destination) (prev : List Destination) (d0 : Destination)
    (hfind : prev.find? (fun d => d.id == dest.id) = some d0)
    (hempty : d0.isEmpty = true)
    (hcen : dest.isCenter = false)
    (hcnt : (prev.filter (fun d => d.isCenter)).length ≤ 1)
    (hfresh : dest.id ≠ (createEmptyNode now rand).id) :
    (∀ d ∈ handleEditDestination maxDestinations now rand dest prev,
        d.id = dest.id → d.isEmpty = false) ∧
    ((handleEditDestination maxDestinations now rand dest prev).length =
        prev.length + 1 ↔
      (hasPlaceholder (fillUpdated dest prev) = false ∧
        filledCount (fillUpdated dest prev) < maxDestinations)) ∧
    (hasPlaceholder (fillUpdated dest prev) = false →
      filledCount (fillUpdated dest prev) < maxDestinations →
      ((handleEditDestination maxDestinations now rand dest prev).filter
        (fun d => !d.isCenter && d.isEmpty)).length = 1) ∧
    (∀ dests : List Destination,
      hasReachedMax dests maxDestinations = true →
      pressEmptyNode dests maxDestinations = PressResult.maxToast) := by
  have hwas : ((prev.find? (fun d => d.id == dest.id)).map
      (fun d => d.isEmpty)).getD false = true := by
    rw [hfind]
    simpa using hempty
  have hq_pos : ∀ (d : Destination) (pos : Pos),
      ((fun d => !d.isCenter && d.isEmpty) { d with position := pos }) =
        ((fun d => !d.isCenter && d.isEmpty) d) := fun d pos => rfl
  have hq_cen : ∀ d : Destination, d.isCenter = true →
      ((fun d => !d.isCenter && d.isEmpty) d) = false := by
    intro d h
    simp [h]
  have hu1c : ((fillUpdated dest prev).filter (fun d => d.isCenter)).length ≤ 1 :=
    le_trans (fillUpdated_center_le dest hcen prev) hcnt
  have hcleared := fillUpdated_id_cleared dest prev
  rcases hhp : hasPlaceholder (fillUpdated dest prev) with _ | _
  · by_cases hlt : filledCount (fillUpdated dest prev) < maxDestinations
    · -- the placeholder is appended
      have hfc2 : filledCount (fillUpdated dest prev ++ [createEmptyNode now rand]) =
          filledCount (fillUpdated dest prev) :=
        filledCount_append_placeholder _ _ rfl rfl
      have hE : handleEditDestination maxDestinations now rand dest prev =
          recalculateNodePositions
            (fillUpdated dest prev ++ [createEmptyNode now rand]) 140 := by
        have hct : (!(hasPlaceholder (fillUpdated dest prev)) &&
            decide (filledCount (fillUpdated dest prev) < maxDestinations)) = true := by
          simp [hhp, hlt]
        have hrem : ¬ (maxDestinations ≤
            filledCount (fillUpdated dest prev ++ [createEmptyNode now rand])) := by
          rw [hfc2]
          omega
        simp only [handleEditDestination, hwas]
        rw [if_true, if_pos hct, if_neg hrem]
      have hc2 : ((fillUpdated dest prev ++ [createEmptyNode now rand]).filter
          (fun d => d.isCenter)).length ≤ 1 := by
        rw [List.filter_append]
        simpa [createEmptyNode] using hu1c
      have hlen : (handleEditDestination maxDestinations now rand dest prev).length =
          prev.length + 1 := by
        rw [hE, recalc_length 140 hc2, List.length_append,
          fillUpdated_length dest prev]
        rfl
      refine ⟨?_, ?_, ?_, ?_⟩
      · rw [hE]
        refine recalc_id_cleared ?_
        intro d hd hid
        rcases List.mem_append.mp hd with h | h
        · exact hcleared d h hid
        · simp only [List.mem_singleton] at h
          subst h
          exact absurd hid.symm (by simpa [createEmptyNode] using hfresh)
      · exact ⟨fun _ => ⟨rfl, hlt⟩, fun _ => hlen⟩
      · intro _ _
        rw [hE, recalc_countP _ hq_pos hq_cen, List.filter_append]
        rw [List.length_append, placeholderCount_eq_zero hhp]
        rfl
      · intro dests h
        simp [pressEmptyNode, h]
    · -- no placeholder appended; all placeholders removed at the maximum
      have hE : handleEditDestination maxDestinations now rand dest prev =
          recalculateNodePositions
            ((fillUpdated dest prev).filter (fun d => d.isCenter || !d.isEmpty)) 140 := by
        have hcf : ¬ ((!(hasPlaceholder (fillUpdated dest prev)) &&
            decide (filledCount (fillUpdated dest prev) < maxDestinations)) = true) := by
          simp [hlt]
        have hrem : maxDestinations ≤ filledCount (fillUpdated dest prev) := by
          omega
        simp only [handleEditDestination, hwas]
        rw [if_true, if_neg hcf, if_pos hrem]
      have hc2 : (((fillUpdated dest prev).filter (fun d => d.isCenter || !d.isEmpty)).filter
          (fun d => d.isCenter)).length ≤ 1 :=
        le_trans (((List.filter_sublist _).filter _).length_le) hu1c
      have hlen : (handleEditDestination maxDestinations now rand dest prev).length ≤
          prev.length := by
        rw [hE, recalc_length 140 hc2]
        calc ((fillUpdated dest prev).filter _).length
            ≤ (fillUpdated dest prev).length := (List.filter_sublist _).length_le
          _ = prev.length := fillUpdated_length dest prev
      refine ⟨?_, ?_, ?_, ?_⟩
      · rw [hE]
        refine recalc_id_cleared ?_
        intro d hd hid
        exact hcleared d (List.mem_of_mem_filter hd) hid
      · refine iff_of_false (by omega) ?_
        rintro ⟨_, h2⟩
        exact hlt h2
      · intro _ h2
        exact absurd h2 hlt
      · intro dests h
        simp [pressEmptyNode, h]
  · -- a placeholder already remains: nothing appended
    have hcondf : (!(hasPlaceholder (fillUpdated dest prev)) &&
        decide (filledCount (fillUpdated dest prev) < maxDestinations)) = false := by
      simp [hhp]
    by_cases hmax : maxDestinations ≤ filledCount (fillUpdated dest prev)
    · have hE : handleEditDestination maxDestinations now rand dest prev =
          recalculateNodePositions
            ((fillUpdated dest prev).filter (fun d => d.isCenter || !d.isEmpty)) 140 := by
        have hcf : ¬ ((!(hasPlaceholder (fillUpdated dest prev)) &&
            decide (filledCount (fillUpdated dest prev) < maxDestinations)) = true) := by
          rw [hcondf]
          simp
        simp only [handleEditDestination, hwas]
        rw [if_true, if_neg hcf, if_pos hmax]
      have hc2 : (((fillUpdated dest prev).filter (fun d => d.isCenter || !d.isEmpty)).filter
          (fun d => d.isCenter)).length ≤ 1 :=
        le_trans (((List.filter_sublist _).filter _).length_le) hu1c
      have hlen : (handleEditDestination maxDestinations now rand dest prev).length ≤
          prev.length := by
        rw [hE, recalc_length 140 hc2]
        calc ((fillUpdated dest prev).filter _).length
            ≤ (fillUpdated dest prev).length := (List.filter_sublist _).length_le
          _ = prev.length := fillUpdated_length dest prev
      refine ⟨?_, ?_, ?_, ?_⟩
      · rw [hE]
        refine recalc_id_cleared ?_
        intro d hd hid
        exact hcleared d (List.mem_of_mem_filter hd) hid
      · refine iff_of_false (by omega) ?_
        rintro ⟨h1, _⟩
        exact absurd h1 (by simp)
      · intro h1 _
        exact absurd h1 (by simp)
      · intro dests h
        simp [pressEmptyNode, h]
    · have hE : handleEditDestination maxDestinations now rand dest prev =
          recalculateNodePositions (fillUpdated dest prev) 140 := by
        have hcf : ¬ ((!(hasPlaceholder (fillUpdated dest prev)) &&
            decide (filledCount (fillUpdated dest prev) < maxDestinations)) = true) := by
          rw [hcondf]
          simp
        simp only [handleEditDestination, hwas]
        rw [if_true, if_neg hcf, if_neg hmax]
      have hlen : (handleEditDestination maxDestinations now rand dest prev).length =
          prev.length := by
        rw [hE, recalc_length 140 hu1c, fillUpdated_length dest prev]
      refine ⟨?_, ?_, ?_, ?_⟩
      · rw [hE]
        exact recalc_id_cleared hcleared
      · refine iff_of_false (by omega) ?_
        rintro ⟨h1, _⟩
        exact absurd h1 (by simp)
      · intro h1 _
        exact absurd h1 (by simp)
      · intro dests h
        simp [pressEmptyNode, h]

/-- Witness for C9: filling the placeholder `plus` in a three-node list
(origin, one filled node, one placeholder) with maximum 20. -/
theorem C9_fill_placeholder_witness :
    ([⟨"home", "📍", "Min posisjon", "#3B82F6", ⟨0, 0⟩, true, false⟩,
      ⟨"park", "🌳", "Park", "#22C55E", ⟨45, 140⟩, false, false⟩,
      ⟨"plus", "+", "Legg til sted", "#E5E7EB", ⟨225, 140⟩, false, true⟩]
        : List Destination).find?
      (fun d => d.id == (⟨"plus", "🏖️", "Strand", "#3B82F6", ⟨225, 140⟩,
        false, false⟩ : Destination).id) =
      some ⟨"plus", "+", "Legg til sted", "#E5E7EB", ⟨225, 140⟩, false, true⟩ ∧
    (([⟨"home", "📍", "Min posisjon", "#3B82F6", ⟨0, 0⟩, true, false⟩,
       ⟨"park", "🌳", "Park", "#22C55E", ⟨45, 140⟩, false, false⟩,
       ⟨"plus", "+", "Legg til sted", "#E5E7EB", ⟨225, 140⟩, false, true⟩]
        : List Destination).filter (fun d => d.isCenter)).length ≤ 1 ∧
    (∀ d ∈ handleEditDestination 20 1 ("r")
        ⟨"plus", "🏖️", "Strand", "#3B82F6", ⟨225, 140⟩, false, false⟩
        [⟨"home", "📍", "Min posisjon", "#3B82F6", ⟨0, 0⟩, true, false⟩,
         ⟨"park", "🌳", "Park", "#22C55E", ⟨45, 140⟩, false, false⟩,
         ⟨"plus", "+", "Legg til sted", "#E5E7EB", ⟨225, 140⟩, false, true⟩],
      d.id = (⟨"plus", "🏖️", "Strand", "#3B82F6", ⟨225, 140⟩, false, false⟩
        : Destination).id → d.isEmpty = false) ∧
    ((handleEditDestination 20 1 ("r")
        ⟨"plus", "🏖️", "Strand", "#3B82F6", ⟨225, 140⟩, false, false⟩
        [⟨"home", "📍", "Min posisjon", "#3B82F6", ⟨0, 0⟩, true, false⟩,
         ⟨"park", "🌳", "Park", "#22C55E", ⟨45, 140⟩, false, false⟩,
         ⟨"plus", "+", "Legg til sted", "#E5E7EB", ⟨225, 140⟩, false, true⟩]).length =
      ([⟨"home", "📍", "Min posisjon", "#3B82F6", ⟨0, 0⟩, true, false⟩,
        ⟨"park", "🌳", "Park", "#22C55E", ⟨45, 140⟩, false, false⟩,
        ⟨"plus", "+", "Legg til sted", "#E5E7EB", ⟨225, 140⟩, false, true⟩]
          : List Destination).length + 1 ↔
      (hasPlaceholder (fillUpdated
          ⟨"plus", "🏖️", "Strand", "#3B82F6", ⟨225, 140⟩, false, false⟩
          [⟨"home", "📍", "Min posisjon", "#3B82F6", ⟨0, 0⟩, true, false⟩,
           ⟨"park", "🌳", "Park", "#22C55E", ⟨45, 140⟩, false, false⟩,
           ⟨"plus", "+", "Legg til sted", "#E5E7EB", ⟨225, 140⟩, false, true⟩]) = false ∧
        filledCount (fillUpdated
          ⟨"plus", "🏖️", "Strand", "#3B82F6", ⟨225, 140⟩, false, false⟩
          [⟨"home", "📍", "Min posisjon", "#3B82F6", ⟨0, 0⟩, true, false⟩,
           ⟨"park", "🌳", "Park", "#22C55E", ⟨45, 140⟩, false, false⟩,
           ⟨"plus", "+", "Legg til sted", "#E5E7EB", ⟨225, 140⟩, false, true⟩]) < 20)) :=
  ⟨rfl, by decide,
    ((C9_fill_placeholder 20 1 ("r")
      ⟨"plus", "🏖️", "Strand", "#3B82F6", ⟨225, 140⟩, false, false⟩
      [⟨"home", "📍", "Min posisjon", "#3B82F6", ⟨0, 0⟩, true, false⟩,
       ⟨"park", "🌳", "Park", "#22C55E", ⟨45, 140⟩, false, false⟩,
       ⟨"plus", "+", "Legg til sted", "#E5E7EB", ⟨225, 140⟩, false, true⟩]
      ⟨"plus", "+", "Legg til sted", "#E5E7EB", ⟨225, 140⟩, false, true⟩
      rfl rfl rfl (by decide) (by decide)).1),
    ((C9_fill_placeholder 20 1 ("r")
      ⟨"plus", "🏖️", "Strand", "#3B82F6", ⟨225, 140⟩, false, false⟩
      [⟨"home", "📍", "Min posisjon", "#3B82F6", ⟨0, 0⟩, true, false⟩,
       ⟨"park", "🌳", "Park", "#22C55E", ⟨45, 140⟩, false, false⟩,
       ⟨"plus", "+", "Legg til sted", "#E5E7EB", ⟨225, 140⟩, false, true⟩]
      ⟨"plus", "+", "Legg til sted", "#E5E7EB", ⟨225, 140⟩, false, true⟩
      rfl rfl rfl (by decide) (by decide)).2.1)⟩

end Snarveg
